import Mathlib

/-!
Shallow embedding of the MacPorts `registry2.0` storage engine
(`sql.c`, `centry.c`, `entry.c`, `util.c`) and proofs about its
specification claims.

The first half embeds the RPM-style version comparator `rpm_vercomp`
from sql.c as a function on `List Char` (the bytes of a C string; the
terminating NUL is represented by running off the end of the list).
The second half embeds the registry state (the persistent `ports` and
`files` tables and the session-scoped handle structures) and the entry
store / file map / handle operations from centry.c and entry.c.
-/

/-- C-locale `isdigit` on ASCII, as `rpm_vercomp` (sql.c) uses it. -/
def isDigitC (c : Char) : Bool := 48 ≤ c.toNat && c.toNat ≤ 57

/-- C-locale `isalpha` on ASCII, as `rpm_vercomp` (sql.c) uses it. -/
def isAlphaC (c : Char) : Bool := (65 ≤ c.toNat && c.toNat ≤ 90) || (97 ≤ c.toNat && c.toNat ≤ 122)

/-- C-locale `isalnum`: digit or letter. -/
def isAlnumC (c : Char) : Bool := isDigitC c || isAlphaC c

/-- Dereference of a C string pointer: the current character, or NUL (`'\0'`)
when the pointer has reached the terminator. -/
def headCh : List Char → Char
  | [] => Char.ofNat 0
  | c :: _ => c

/-- The separator skip of `rpm_vercomp`:
`while (*ptr != '\0' && !isalnum(*ptr)) ptr++;`. -/
def sepSkip (l : List Char) : List Char := l.dropWhile (fun c => !isAlnumC c)

/-- The lexicographic scan of `rpm_vercomp`: advance both pointers while both
are within their segments and the characters agree
(`while (ptrA != eptrA && ptrB != eptrB && *ptrA == *ptrB) { ptrA++; ptrB++; }`);
report the two characters exactly when both pointers are still in range at the
first disagreement (`if (ptrA != eptrA && ptrB != eptrB) return *ptrA - *ptrB;`),
and nothing otherwise. -/
def firstDiff : List Char → List Char → Option (Char × Char)
  | a :: as, b :: bs => if a = b then firstDiff as bs else some (a, b)
  | _, _ => none

/-- The main `while (*ptrA != '\0' && *ptrB != '\0')` loop of `rpm_vercomp`
(sql.c), one iteration per recursion step.  In each iteration: skip
separators on both sides; apply the digit-beats-non-digit compatibility rule
(`if (!isdigit(*ptrB)) { if (isdigit(*ptrA)) return 1; }`); return -1 when the
segment classes differ; scan an alphabetic segment, or a numeric segment whose
leading `'0'` characters are stripped before the lengths are compared
(the C code counts `countA`/`countB` over the digit runs and decrements them
while skipping leading zeros, which leaves exactly the length of the run with
its leading zeros dropped); finally compare the segments bytewise and advance
both pointers past their whole segments.  After the loop, the side that still
has characters left is the greater one.

The `Nat` argument is fuel driving the recursion; every iteration strictly
shortens the first list, so `A.length + 1` fuel always suffices, and
`vercompGo_fuel` below shows the value is independent of the fuel once the
fuel is sufficient. -/
def vercompGo : Nat → List Char → List Char → Int
  | 0, _, _ => 0
  | n + 1, A, B =>
    if A = [] ∨ B = [] then
      if A = [] ∧ B = [] then 0
      else if ¬ A = [] then 1
      else -1
    else
      if isDigitC (headCh (sepSkip B)) = false ∧ isDigitC (headCh (sepSkip A)) = true then 1
      else if (isDigitC (headCh (sepSkip A)) = true ∧ isAlphaC (headCh (sepSkip B)) = true)
           ∨ (isAlphaC (headCh (sepSkip A)) = true ∧ isDigitC (headCh (sepSkip B)) = true) then -1
      else if isAlphaC (headCh (sepSkip A)) = true then
        match firstDiff ((sepSkip A).takeWhile isAlphaC) ((sepSkip B).takeWhile isAlphaC) with
        | some (ca, cb) => (ca.toNat : Int) - (cb.toNat : Int)
        | none => vercompGo n ((sepSkip A).dropWhile isAlphaC) ((sepSkip B).dropWhile isAlphaC)
      else
        if ((((sepSkip B).takeWhile isDigitC).dropWhile (fun c => c = '0')).length
            < (((sepSkip A).takeWhile isDigitC).dropWhile (fun c => c = '0')).length) then 1
        else if ((((sepSkip A).takeWhile isDigitC).dropWhile (fun c => c = '0')).length
            < (((sepSkip B).takeWhile isDigitC).dropWhile (fun c => c = '0')).length) then -1
        else
          match firstDiff (((sepSkip A).takeWhile isDigitC).dropWhile (fun c => c = '0'))
              (((sepSkip B).takeWhile isDigitC).dropWhile (fun c => c = '0')) with
          | some (ca, cb) => (ca.toNat : Int) - (cb.toNat : Int)
          | none => vercompGo n ((sepSkip A).dropWhile isDigitC) ((sepSkip B).dropWhile isDigitC)

/-- The loop of `rpm_vercomp` entered at strings `A`, `B`, with enough fuel. -/
def vercompRun (A B : List Char) : Int := vercompGo (A.length + 1) A B

/-- `rpm_vercomp` from sql.c: the `if(!strcmp(versionA, versionB)) return 0;`
short-circuit, then the main loop. -/
def rpm_vercomp (A B : List Char) : Int := if A = B then 0 else vercompRun A B

/-- Classification of the sign of the comparator result, as its callers (the
sqlite VERSION collation, hence sorting and comparison) consume it. -/
def ordOfInt (i : Int) : Ordering := if i < 0 then .lt else if i = 0 then .eq else .gt

/-- String-level version comparison — `compare(a, b)` of the specification. -/
def vercomp (a b : String) : Ordering := ordOfInt (rpm_vercomp a.data b.data)

/-- A byte string that is empty or ends in an alphanumeric character (no
trailing run of separator characters).  Antisymmetry of `rpm_vercomp` holds on
this class of strings; see the C2 theorems. -/
def tailAlnum (l : List Char) : Bool :=
  match l.getLast? with
  | none => true
  | some c => isAlnumC c

/-- One row of the persistent `registry.ports` table (see `create_tables` in
sql.c): columns `name, portfile, url, location, epoch, version, revision,
variants, state, date` plus the sqlite rowid.  `none` is SQL NULL; a freshly
created row has NULL in every column not supplied by the INSERT of
`reg_entry_create`. -/
structure PortRow where
  rowid : Nat
  name : Option String
  portfile : Option String
  url : Option String
  location : Option String
  epoch : Option String
  version : Option String
  revision : Option String
  variants : Option String
  state : Option String
  date : Option String
deriving DecidableEq

/-- One row of the persistent `registry.files` table: `(port_id, path UNIQUE)`
(the unused `mtime` column is omitted). -/
structure FileRow where
  port_id : Nat
  path : String
deriving DecidableEq

/-- The persistent registry state: the `ports` and `files` tables. -/
structure RegState where
  ports : List PortRow
  files : List FileRow
deriving DecidableEq

/-- Equality under the VERSION collation that `create_tables` declares on the
`version` and `revision` columns: sqlite reports two values equal when the
registered comparison function `rpm_vercomp` returns 0. -/
def verEqSql (x y : String) : Bool := rpm_vercomp x.data y.data = 0

/-- Whether an existing row collides with the tuple being inserted under the
`UNIQUE (name, epoch, version, revision, variants)` constraint of the `ports`
table.  sqlite UNIQUE indexes never match rows with NULL in a constrained
column, and they compare `version`/`revision` with the VERSION collation.
(The second constraint `UNIQUE (url, ...)` can never fire on insert because
`reg_entry_create` leaves `url` NULL.) -/
def nameKeyConflict (row : PortRow) (name epoch version revision variants : String) : Bool :=
  match row.name, row.epoch, row.version, row.revision, row.variants with
  | some n, some e, some v, some r, some vr =>
      n = name && e = epoch && verEqSql v version && verEqSql r revision && vr = variants
  | _, _, _, _, _ => false

/-- The rowid sqlite assigns to an inserted row (one more than the largest
rowid in the table), reported by `sqlite3_last_insert_rowid`. -/
def freshRowid (st : RegState) : Nat := (st.ports.map PortRow.rowid).foldr max 0 + 1

/-- The error outcomes the embedded operations can produce, by the `code`
strings the C sets in `reg_error`: `registry::sqlite-error` (the generic
storage error built by `reg_sqlite_error`, carrying sqlite's diagnostic
text), `registry::invalid-entry`, `registry::already-owned`,
`registry::not-owned` (whose message in `entry_obj_unmap` names the path),
and `registry::not-found` (from `get_object` in util.c, naming the handle). -/
inductive RegError where
  | sqliteError
  | invalidEntry
  | alreadyOwned
  | notOwned (path : String)
  | notFound (name : String)
deriving DecidableEq

/-- `reg_entry_create` (centry.c): one INSERT of
`(name, version, revision, variants, epoch)` into `registry.ports`.  On a
uniqueness violation `sqlite3_step` fails and the code calls
`reg_sqlite_error`, producing the generic `registry::sqlite-error`; the single
failed statement leaves the table unchanged.  On success the new row is
appended and a `reg_entry` handle carrying `sqlite3_last_insert_rowid` is
returned. -/
def reg_entry_create (st : RegState) (name version revision variants epoch : String) :
    RegState × Option Nat × Option RegError :=
  if st.ports.any (fun row => nameKeyConflict row name epoch version revision variants) then
    (st, none, some RegError.sqliteError)
  else
    (⟨st.ports ++ [{ rowid := freshRowid st, name := some name, portfile := none, url := none,
                     location := none, epoch := some epoch, version := some version,
                     revision := some revision, variants := some variants,
                     state := none, date := none }], st.files⟩,
     some (freshRowid st), none)

/-- `reg_entry_delete` (centry.c): for each entry in order, run
`DELETE FROM registry.ports WHERE rowid=?`; when `sqlite3_changes` reports 0
the entry was invalid — stop with `registry::invalid-entry` and return the
number already deleted.  The `BEGIN`/`COMMIT` markers in the C are comments
only, and no statement ever touches the `files` table. -/
def reg_entry_delete (st : RegState) : List Nat → RegState × Nat × Option RegError
  | [] => (st, 0, none)
  | r :: rest =>
    if st.ports.any (fun row => row.rowid = r) then
      match reg_entry_delete ⟨st.ports.filter (fun row => ¬ row.rowid = r), st.files⟩ rest with
      | (st', n, e) => (st', n + 1, e)
    else (st, 0, some RegError.invalidEntry)

/-- `reg_entry_map` (centry.c) / `entry_obj_map` (entry.c): for each path in
order, `INSERT INTO registry.files (port_id, path) VALUES (?, ?)`.  When the
`path UNIQUE` constraint fires the loop stops, reporting
`registry::already-owned` and the number already inserted; the earlier
inserts are not rolled back (the `BEGIN`/`END or ROLLBACK?` markers in the C
are comments only). -/
def reg_entry_map (st : RegState) (r : Nat) : List String → RegState × Nat × Option RegError
  | [] => (st, 0, none)
  | p :: rest =>
    if st.files.any (fun f => f.path = p) then
      (st, 0, some RegError.alreadyOwned)
    else
      match reg_entry_map ⟨st.ports, st.files ++ [⟨r, p⟩]⟩ r rest with
      | (st', n, e) => (st', n + 1, e)

/-- `reg_entry_unmap` (centry.c) / `entry_obj_unmap` (entry.c): for each path
in order, `DELETE FROM registry.files WHERE port_id=? AND path=?`; when
`sqlite3_changes` reports 0 the entry did not own the path — stop with the
not-owned error (whose message in `entry_obj_unmap` names the path) and the
number already removed.  Earlier removals stand. -/
def reg_entry_unmap (st : RegState) (r : Nat) : List String → RegState × Nat × Option RegError
  | [] => (st, 0, none)
  | p :: rest =>
    if st.files.any (fun f => f.port_id = r ∧ f.path = p) then
      match reg_entry_unmap
          ⟨st.ports, st.files.filter (fun f => ¬ (f.port_id = r ∧ f.path = p))⟩ r rest with
      | (st', n, e) => (st', n + 1, e)
    else (st, 0, some (RegError.notOwned p))

/-- The fixed set of recognized entry property names (`entry_props` in
entry.c). -/
def entry_props : List String :=
  ["name", "portfile", "url", "location", "epoch", "version", "revision", "variants", "date",
   "state"]

/-- The column of `registry.ports` selected by a recognized property name. -/
def rowProp (row : PortRow) (key : String) : Option String :=
  if key = "name" then row.name
  else if key = "portfile" then row.portfile
  else if key = "url" then row.url
  else if key = "location" then row.location
  else if key = "epoch" then row.epoch
  else if key = "version" then row.version
  else if key = "revision" then row.revision
  else if key = "variants" then row.variants
  else if key = "date" then row.date
  else if key = "state" then row.state
  else none

/-- sqlite semantics of the `key='value'` comparison that `reg_entry_search`
interpolates into its query: NULL matches nothing, the `version` and
`revision` columns compare under their declared VERSION collation, and every
other column compares bytewise. -/
def sqlEq (key : String) (stored : Option String) (v : String) : Bool :=
  match stored with
  | none => false
  | some s => if key = "version" ∨ key = "revision" then verEqSql s v else s = v

/-- A row satisfies the `WHERE k1='v1' AND k2='v2' AND ...` clause that
`reg_entry_search` builds (the first predicate after `WHERE`, each later one
joined with `AND`); an empty predicate list yields no WHERE clause, which
every row satisfies. -/
def rowMatches (row : PortRow) (preds : List (String × String)) : Bool :=
  preds.all (fun kv => sqlEq kv.1 (rowProp row kv.1) kv.2)

/-- `reg_entry_search` (centry.c) with the exact (`=`) strategy: the rowids
produced by `SELECT rowid FROM registry.ports` filtered by the conjunction of
the given key/value predicates. -/
def reg_entry_search (st : RegState) (preds : List (String × String)) : List Nat :=
  (st.ports.filter (fun row => rowMatches row preds)).map PortRow.rowid

/-- The key/value marshalling loop of `entry_search` (entry.c):

    for (i=0; i<key_count; i+=2) \x7b
        keys[i] = Tcl_GetString(objv[2*i+2]);
        vals[i] = Tcl_GetString(objv[2*i+3]);
    \x7d

With the caller's pairs `(objv[2], objv[3]), (objv[4], objv[5]), ...`, slot `i`
of the `keys`/`vals` arrays receives pair `i` only for even `i`; odd slots are
left uninitialized (`none`), yet `key_count` slots are passed on to
`reg_entry_search`. -/
def entry_search_marshal (pairs : List (String × String)) : List (Option (String × String)) :=
  (List.range pairs.length).map (fun i => if i % 2 = 0 then pairs.get? i else none)

/-- The session-scoped per-interpreter state: the temporary `entry_procs`
table (`entry_id UNIQUE, proc UNIQUE`, created by `init_db` in sql.c) and the
set of entry-object command names registered in the Tcl interpreter by
`set_entry`. -/
structure Session where
  procs : List (Nat × String)
  cmds : List String
deriving DecidableEq

/-- The prefix both `entry_create` and `entry_to_obj` pass to `unique_name`. -/
def handleBase : String := "registry::entry"

/-- `unique_name` (util.c): the first name `registry::entry<i>`, for
`i = 0, 1, 2, ...`, that is not yet a command of the interpreter.  Among the
first `cmds.length + 1` candidates at least one is free, so the search is
bounded; the fallback arm is unreachable. -/
def uniqueName (cmds : List String) : String :=
  match (List.range (cmds.length + 1)).find?
      (fun i => !cmds.contains (handleBase ++ toString i)) with
  | some i => handleBase ++ toString i
  | none => handleBase

/-- `entry_to_obj` (entry.c), the exposure path used by `entry_search`:
`SELECT proc FROM entry_procs WHERE entry_id=?`; when a row exists its proc
is returned unchanged, otherwise a fresh `unique_name` is minted, registered
as a command (`set_entry`), recorded in `entry_procs`, and returned. -/
def entry_to_obj (s : Session) (r : Nat) : Session × String :=
  match s.procs.find? (fun x => x.1 = r) with
  | some pr => (s, pr.2)
  | none =>
    (⟨s.procs ++ [(r, uniqueName s.cmds)], s.cmds ++ [uniqueName s.cmds]⟩, uniqueName s.cmds)

/-- The session effect of `entry_create` (entry.c): after the row insert it
mints a fresh `unique_name` and registers it as a command via `set_entry`,
but unlike `entry_to_obj` it never inserts into `entry_procs`. -/
def entry_create_session (s : Session) : Session × String :=
  (⟨s.procs, s.cmds ++ [uniqueName s.cmds]⟩, uniqueName s.cmds)

/-- `entry_close` (entry.c): for each handle, `get_entry` requires the name to
be a registered entry command (else `registry::not-found` aborts the loop),
and `Tcl_DeleteCommand` then removes that command from the interpreter.
Nothing else is touched: no statement runs against the persistent tables, and
even the `entry_procs` row of the handle is left behind. -/
def entry_close (s : Session) : List String → Session × Option RegError
  | [] => (s, none)
  | h :: rest =>
    if h ∈ s.cmds then entry_close ⟨s.procs, s.cmds.erase h⟩ rest
    else (s, some (RegError.notFound h))

/-- `entry_close` acting on the combined persistent-plus-session state: the
C function receives no database connection and issues no query, so the
persistent `RegState` passes through untouched. -/
def entry_close_full (reg : RegState) (s : Session) (hs : List String) :
    RegState × Session × Option RegError :=
  (reg, entry_close s hs)

/-- Concrete row used by the C4/C5 scenarios: the result of
`registry::entry create vim 7.1.000 0 \x7bmultibyte +\x7d 0` landing in rowid 1. -/
def demoRow : PortRow :=
  { rowid := 1, name := some "vim", portfile := none, url := none, location := none,
    epoch := some "0", version := some "7.1.000", revision := some "0",
    variants := some "multibyte +", state := none, date := none }

/-! ### Helper lemmas about the comparator's character classes and scans -/

theorem isDigitC_iff {c : Char} : isDigitC c = true ↔ 48 ≤ c.toNat ∧ c.toNat ≤ 57 := by
  simp [isDigitC]

theorem isAlphaC_iff {c : Char} :
    isAlphaC c = true ↔ (65 ≤ c.toNat ∧ c.toNat ≤ 90) ∨ (97 ≤ c.toNat ∧ c.toNat ≤ 122) := by
  simp [isAlphaC]

theorem digit_not_alpha {c : Char} (h : isDigitC c = true) : isAlphaC c = false := by
  rw [isDigitC_iff] at h
  rw [Bool.eq_false_iff]
  intro h2
  rw [isAlphaC_iff] at h2
  omega

theorem alnum_digit_or_alpha {c : Char} (h : isAlnumC c = true) :
    isDigitC c = true ∨ isAlphaC c = true := by
  rw [isAlnumC, Bool.or_eq_true] at h
  exact h

theorem headCh_cons (c : Char) (t : List Char) : headCh (c :: t) = c := rfl

theorem sepSkip_head_alnum : ∀ {l c t}, sepSkip l = c :: t → isAlnumC c = true := by
  intro l
  induction l with
  | nil => intro c t h; simp [sepSkip] at h
  | cons a as ih =>
    intro c t h
    rw [sepSkip, List.dropWhile_cons] at h
    by_cases ha : isAlnumC a = true
    · rw [if_neg (by simp [ha])] at h
      cases h
      exact ha
    · rw [if_pos (by simp [Bool.not_eq_true] at ha ⊢; exact ha)] at h
      exact ih h

theorem sepSkip_suffix (l : List Char) : sepSkip l <:+ l := List.dropWhile_suffix _

theorem length_dropWhile_lt_of_head {p : Char → Bool} {l : List Char}
    (hne : l ≠ []) (h : p (headCh l) = true) : (l.dropWhile p).length < l.length := by
  cases l with
  | nil => exact absurd rfl hne
  | cons a t =>
    rw [headCh_cons] at h
    rw [List.dropWhile_cons, if_pos h]
    have := (List.dropWhile_suffix (l := t) p).length_le
    simp only [List.length_cons]
    omega

theorem alpha_rest_lt {A : List Char} (h : isAlphaC (headCh (sepSkip A)) = true) :
    ((sepSkip A).dropWhile isAlphaC).length < A.length := by
  have h1 : sepSkip A ≠ [] := by
    intro e
    rw [e] at h
    exact absurd h (by decide)
  exact lt_of_lt_of_le (length_dropWhile_lt_of_head h1 h) (sepSkip_suffix A).length_le

theorem num_rest_lt {A : List Char} (hA : A ≠ []) (h : isAlphaC (headCh (sepSkip A)) = false) :
    ((sepSkip A).dropWhile isDigitC).length < A.length := by
  cases hs : sepSkip A with
  | nil =>
    simp only [hs, List.dropWhile_nil, List.length_nil]
    exact List.length_pos.mpr hA
  | cons c t =>
    have hc : isAlnumC c = true := sepSkip_head_alnum hs
    have hd : isDigitC c = true := by
      rcases alnum_digit_or_alpha hc with h1 | h1
      · exact h1
      · rw [hs, headCh_cons, h1] at h
        cases h
    have h1 : sepSkip A ≠ [] := by rw [hs]; simp
    have h2 : (sepSkip A).length ≤ A.length := (sepSkip_suffix A).length_le
    have h3 := length_dropWhile_lt_of_head (p := isDigitC) h1 (by rw [hs, headCh_cons]; exact hd)
    rw [hs] at h2 h3
    omega

theorem firstDiff_swap : ∀ a b : List Char,
    firstDiff b a = (firstDiff a b).map (fun pr => (pr.2, pr.1)) := by
  intro a
  induction a with
  | nil => intro b; cases b <;> simp [firstDiff]
  | cons x xs ih =>
    intro b
    cases b with
    | nil => simp [firstDiff]
    | cons y ys =>
      simp only [firstDiff]
      by_cases h : x = y
      · subst h
        rw [if_pos rfl, if_pos rfl]
        exact ih ys
      · rw [if_neg h, if_neg (fun e => h e.symm)]
        simp

theorem tailAlnum_suffix {l l' : List Char} (h : l' <:+ l) (ht : tailAlnum l = true) :
    tailAlnum l' = true := by
  cases hl' : l'.getLast? with
  | none => simp [tailAlnum, hl']
  | some c =>
    have hne : l' ≠ [] := by
      intro e
      rw [e] at hl'
      simp at hl'
    obtain ⟨t, rfl⟩ := h
    rw [tailAlnum, hl']
    rw [tailAlnum, List.getLast?_append_of_ne_nil t hne, hl'] at ht
    exact ht

theorem sepSkip_ne_nil {l : List Char} (hne : l ≠ []) (h : tailAlnum l = true) :
    sepSkip l ≠ [] := by
  intro he
  rw [sepSkip, List.dropWhile_eq_nil_iff] at he
  cases hl : l.getLast? with
  | none =>
    rw [List.getLast?_eq_none_iff] at hl
    exact hne hl
  | some c =>
    have hc := he c (List.mem_of_mem_getLast? hl)
    simp only [tailAlnum, hl] at h
    simp [h] at hc

theorem ordOfInt_neg (i : Int) : ordOfInt (-i) = (ordOfInt i).swap := by
  rw [ordOfInt, ordOfInt]
  rcases lt_trichotomy i 0 with h | h | h
  · rw [if_neg (by omega), if_neg (by omega), if_pos h, Ordering.swap]
  · rw [h]
    norm_num [Ordering.swap]
  · rw [if_pos (by omega), if_neg (by omega), if_neg (by omega), Ordering.swap]

theorem vercompGo_fuel : ∀ n m A B, A.length < n → A.length < m →
    vercompGo n A B = vercompGo m A B := by
  intro n
  induction n with
  | zero => intro m A B hn _; exact absurd hn (Nat.not_lt_zero _)
  | succ n ih =>
    intro m A B hn hm
    cases m with
    | zero => exact absurd hm (Nat.not_lt_zero _)
    | succ m =>
      simp only [vercompGo]
      by_cases h0 : A = [] ∨ B = []
      · simp only [if_pos h0]
      · simp only [if_neg h0]
        have hA : A ≠ [] := fun e => h0 (Or.inl e)
        by_cases h1 : isDigitC (headCh (sepSkip B)) = false ∧ isDigitC (headCh (sepSkip A)) = true
        · simp only [if_pos h1]
        · simp only [if_neg h1]
          by_cases h2 : (isDigitC (headCh (sepSkip A)) = true
                ∧ isAlphaC (headCh (sepSkip B)) = true)
              ∨ (isAlphaC (headCh (sepSkip A)) = true ∧ isDigitC (headCh (sepSkip B)) = true)
          · simp only [if_pos h2]
          · simp only [if_neg h2]
            by_cases h3 : isAlphaC (headCh (sepSkip A)) = true
            · simp only [if_pos h3]
              cases hfd : firstDiff ((sepSkip A).takeWhile isAlphaC)
                  ((sepSkip B).takeWhile isAlphaC) with
              | some pr =>
                obtain ⟨ca, cb⟩ := pr
                simp only [hfd]
              | none =>
                simp only [hfd]
                have hlt := alpha_rest_lt h3
                have hn' : A.length ≤ n := by omega
                have hm' : A.length ≤ m := by omega
                exact ih m _ _ (by omega) (by omega)
            · simp only [if_neg h3]
              rw [Bool.not_eq_true] at h3
              by_cases h4 : ((((sepSkip B).takeWhile isDigitC).dropWhile (fun c => c = '0')).length
                  < (((sepSkip A).takeWhile isDigitC).dropWhile (fun c => c = '0')).length)
              · simp only [if_pos h4]
              · simp only [if_neg h4]
                by_cases h5 : ((((sepSkip A).takeWhile isDigitC).dropWhile
                      (fun c => c = '0')).length
                    < (((sepSkip B).takeWhile isDigitC).dropWhile (fun c => c = '0')).length)
                · simp only [if_pos h5]
                · simp only [if_neg h5]
                  cases hfd : firstDiff
                      (((sepSkip A).takeWhile isDigitC).dropWhile (fun c => c = '0'))
                      (((sepSkip B).takeWhile isDigitC).dropWhile (fun c => c = '0')) with
                  | some pr =>
                    obtain ⟨ca, cb⟩ := pr
                    simp only [hfd]
                  | none =>
                    simp only [hfd]
                    have hlt := num_rest_lt hA h3
                    exact ih m _ _ (by omega) (by omega)

theorem vercompGo_neg : ∀ n A B, A.length < n → B.length < n →
    tailAlnum A = true → tailAlnum B = true →
    vercompGo n B A = - vercompGo n A B := by
  intro n
  induction n with
  | zero => intro A B hA _ _ _; exact absurd hA (Nat.not_lt_zero _)
  | succ n ih =>
    intro A B hA hB htA htB
    by_cases h0 : A = [] ∨ B = []
    · rcases h0 with h | h
      · subst h
        by_cases hb : B = []
        · subst hb
          simp [vercompGo]
        · simp [vercompGo, hb]
      · subst h
        by_cases ha : A = []
        · subst ha
          simp [vercompGo]
        · simp [vercompGo, ha]
    · have hAne : A ≠ [] := fun e => h0 (Or.inl e)
      have hBne : B ≠ [] := fun e => h0 (Or.inr e)
      have h0' : ¬ (B = [] ∨ A = []) := fun h => h.elim (fun e => hBne e) (fun e => hAne e)
      have hA1 := sepSkip_ne_nil hAne htA
      have hB1 := sepSkip_ne_nil hBne htB
      cases hsA : sepSkip A with
      | nil => exact absurd hsA hA1
      | cons ca ta =>
      cases hsB : sepSkip B with
      | nil => exact absurd hsB hB1
      | cons cb tb =>
      have hhA : headCh (sepSkip A) = ca := by rw [hsA, headCh_cons]
      have hhB : headCh (sepSkip B) = cb := by rw [hsB, headCh_cons]
      have hcaAl : isAlnumC ca = true := sepSkip_head_alnum hsA
      have hcbAl : isAlnumC cb = true := sepSkip_head_alnum hsB
      have htA' : tailAlnum ((sepSkip A).dropWhile isAlphaC) = true :=
        tailAlnum_suffix ((List.dropWhile_suffix _).trans (sepSkip_suffix A)) htA
      have htB' : tailAlnum ((sepSkip B).dropWhile isAlphaC) = true :=
        tailAlnum_suffix ((List.dropWhile_suffix _).trans (sepSkip_suffix B)) htB
      have htA2 : tailAlnum ((sepSkip A).dropWhile isDigitC) = true :=
        tailAlnum_suffix ((List.dropWhile_suffix _).trans (sepSkip_suffix A)) htA
      have htB2 : tailAlnum ((sepSkip B).dropWhile isDigitC) = true :=
        tailAlnum_suffix ((List.dropWhile_suffix _).trans (sepSkip_suffix B)) htB
      simp only [vercompGo]
      rw [if_neg h0', if_neg h0]
      cases hda : isDigitC ca with
      | true =>
        cases hdb : isDigitC cb with
        | true =>
          -- both current segments numeric
          have hc1BA : ¬ (isDigitC (headCh (sepSkip A)) = false
              ∧ isDigitC (headCh (sepSkip B)) = true) := by simp [hhA, hda]
          have hc1AB : ¬ (isDigitC (headCh (sepSkip B)) = false
              ∧ isDigitC (headCh (sepSkip A)) = true) := by simp [hhB, hdb]
          have hc2BA : ¬ ((isDigitC (headCh (sepSkip B)) = true
                ∧ isAlphaC (headCh (sepSkip A)) = true)
              ∨ (isAlphaC (headCh (sepSkip B)) = true
                ∧ isDigitC (headCh (sepSkip A)) = true)) := by
            simp [hhA, hhB, digit_not_alpha hda, digit_not_alpha hdb]
          have hc2AB : ¬ ((isDigitC (headCh (sepSkip A)) = true
                ∧ isAlphaC (headCh (sepSkip B)) = true)
              ∨ (isAlphaC (headCh (sepSkip A)) = true
                ∧ isDigitC (headCh (sepSkip B)) = true)) := by
            simp [hhA, hhB, digit_not_alpha hda, digit_not_alpha hdb]
          have hc3BA : ¬ isAlphaC (headCh (sepSkip B)) = true := by
            simp [hhB, digit_not_alpha hdb]
          have hc3AB : ¬ isAlphaC (headCh (sepSkip A)) = true := by
            simp [hhA, digit_not_alpha hda]
          rw [if_neg hc1BA, if_neg hc1AB, if_neg hc2BA, if_neg hc2AB, if_neg hc3BA,
              if_neg hc3AB]
          rcases Nat.lt_trichotomy
              ((((sepSkip A).takeWhile isDigitC).dropWhile (fun c => c = '0')).length)
              ((((sepSkip B).takeWhile isDigitC).dropWhile (fun c => c = '0')).length)
            with hlt | heq | hgt
          · rw [if_pos hlt, if_neg (by omega), if_pos hlt]
            norm_num
          · rw [if_neg (by omega), if_neg (by omega), if_neg (by omega), if_neg (by omega)]
            rw [firstDiff_swap (((sepSkip A).takeWhile isDigitC).dropWhile (fun c => c = '0'))
                (((sepSkip B).takeWhile isDigitC).dropWhile (fun c => c = '0'))]
            cases hfd : firstDiff
                (((sepSkip A).takeWhile isDigitC).dropWhile (fun c => c = '0'))
                (((sepSkip B).takeWhile isDigitC).dropWhile (fun c => c = '0')) with
            | some pr =>
              obtain ⟨x, y⟩ := pr
              simp only [hfd, Option.map_some']
              omega
            | none =>
              simp only [hfd, Option.map_none']
              have hlA := num_rest_lt hAne (by rw [hhA]; exact digit_not_alpha hda)
              have hlB := num_rest_lt hBne (by rw [hhB]; exact digit_not_alpha hdb)
              exact ih _ _ (by omega) (by omega) htA2 htB2
          · rw [if_neg (by omega), if_pos hgt, if_pos hgt]
        | false =>
          -- A's current segment numeric, B's alphabetic (or B exhausted mid-skip is
          -- excluded by tailAlnum): the compatibility rules decide both directions
          have hab : isAlphaC cb = true := by
            rcases alnum_digit_or_alpha hcbAl with h | h
            · rw [h] at hdb; cases hdb
            · exact h
          have hc1BA : ¬ (isDigitC (headCh (sepSkip A)) = false
              ∧ isDigitC (headCh (sepSkip B)) = true) := by simp [hhA, hda]
          have hc1AB : isDigitC (headCh (sepSkip B)) = false
              ∧ isDigitC (headCh (sepSkip A)) = true :=
            ⟨by rw [hhB]; exact hdb, by rw [hhA]; exact hda⟩
          have hc2BA : (isDigitC (headCh (sepSkip B)) = true
                ∧ isAlphaC (headCh (sepSkip A)) = true)
              ∨ (isAlphaC (headCh (sepSkip B)) = true
                ∧ isDigitC (headCh (sepSkip A)) = true) :=
            Or.inr ⟨by rw [hhB]; exact hab, by rw [hhA]; exact hda⟩
          rw [if_neg hc1BA, if_pos hc2BA, if_pos hc1AB]
      | false =>
        have haa : isAlphaC ca = true := by
          rcases alnum_digit_or_alpha hcaAl with h | h
          · rw [h] at hda; cases hda
          · exact h
        cases hdb : isDigitC cb with
        | true =>
          -- A's current segment alphabetic, B's numeric
          have hc1BA : isDigitC (headCh (sepSkip A)) = false
              ∧ isDigitC (headCh (sepSkip B)) = true :=
            ⟨by rw [hhA]; exact hda, by rw [hhB]; exact hdb⟩
          have hc1AB : ¬ (isDigitC (headCh (sepSkip B)) = false
              ∧ isDigitC (headCh (sepSkip A)) = true) := by simp [hhB, hdb]
          have hc2AB : (isDigitC (headCh (sepSkip A)) = true
                ∧ isAlphaC (headCh (sepSkip B)) = true)
              ∨ (isAlphaC (headCh (sepSkip A)) = true
                ∧ isDigitC (headCh (sepSkip B)) = true) :=
            Or.inr ⟨by rw [hhA]; exact haa, by rw [hhB]; exact hdb⟩
          rw [if_pos hc1BA, if_neg hc1AB, if_pos hc2AB]
          norm_num
        | false =>
          -- both current segments alphabetic
          have hab : isAlphaC cb = true := by
            rcases alnum_digit_or_alpha hcbAl with h | h
            · rw [h] at hdb; cases hdb
            · exact h
          have hc1BA : ¬ (isDigitC (headCh (sepSkip A)) = false
              ∧ isDigitC (headCh (sepSkip B)) = true) := by simp [hhB, hdb]
          have hc1AB : ¬ (isDigitC (headCh (sepSkip B)) = false
              ∧ isDigitC (headCh (sepSkip A)) = true) := by simp [hhA, hda]
          have hc2BA : ¬ ((isDigitC (headCh (sepSkip B)) = true
                ∧ isAlphaC (headCh (sepSkip A)) = true)
              ∨ (isAlphaC (headCh (sepSkip B)) = true
                ∧ isDigitC (headCh (sepSkip A)) = true)) := by
            simp [hhA, hhB, hda, hdb]
          have hc2AB : ¬ ((isDigitC (headCh (sepSkip A)) = true
                ∧ isAlphaC (headCh (sepSkip B)) = true)
              ∨ (isAlphaC (headCh (sepSkip A)) = true
                ∧ isDigitC (headCh (sepSkip B)) = true)) := by
            simp [hhA, hhB, hda, hdb]
          have hc3BA : isAlphaC (headCh (sepSkip B)) = true := by rw [hhB]; exact hab
          have hc3AB : isAlphaC (headCh (sepSkip A)) = true := by rw [hhA]; exact haa
          rw [if_neg hc1BA, if_neg hc1AB, if_neg hc2BA, if_neg hc2AB, if_pos hc3BA,
              if_pos hc3AB]
          rw [firstDiff_swap ((sepSkip A).takeWhile isAlphaC) ((sepSkip B).takeWhile isAlphaC)]
          cases hfd : firstDiff ((sepSkip A).takeWhile isAlphaC)
              ((sepSkip B).takeWhile isAlphaC) with
          | some pr =>
            obtain ⟨x, y⟩ := pr
            simp only [hfd, Option.map_some']
            omega
          | none =>
            simp only [hfd, Option.map_none']
            have hlA := alpha_rest_lt (A := A) (by rw [hhA]; exact haa)
            have hlB := alpha_rest_lt (A := B) (by rw [hhB]; exact hab)
            exact ih _ _ (by omega) (by omega) htA' htB'

theorem rpm_vercomp_self (a : List Char) : rpm_vercomp a a = 0 := by
  rw [rpm_vercomp, if_pos rfl]

theorem rpm_vercomp_neg {a b : List Char} (ha : tailAlnum a = true) (hb : tailAlnum b = true) :
    rpm_vercomp b a = - rpm_vercomp a b := by
  by_cases h : a = b
  · subst h
    rw [rpm_vercomp_self]
    norm_num
  · rw [rpm_vercomp, rpm_vercomp, if_neg h, if_neg (fun e => h e.symm)]
    rw [vercompRun, vercompRun]
    rw [vercompGo_fuel (b.length + 1) (a.length + b.length + 1) b a (by omega) (by omega),
        vercompGo_fuel (a.length + 1) (a.length + b.length + 1) a b (by omega) (by omega)]
    exact vercompGo_neg (a.length + b.length + 1) a b (by omega) (by omega) ha hb

theorem vercomp_refl (a : String) : vercomp a a = Ordering.eq := by
  rw [vercomp, rpm_vercomp_self]
  rfl

theorem vercomp_antisym {a b : String} (ha : tailAlnum a.data = true)
    (hb : tailAlnum b.data = true) : vercomp b a = (vercomp a b).swap := by
  rw [vercomp, vercomp, rpm_vercomp_neg ha hb, ordOfInt_neg]

theorem vercompRun_numeric_step (A B : List Char) (hAne : A ≠ []) (hBne : B ≠ [])
    (hdA : isDigitC (headCh (sepSkip A)) = true) (hdB : isDigitC (headCh (sepSkip B)) = true) :
    ((((sepSkip B).takeWhile isDigitC).dropWhile (fun c => c = '0')).length
        < (((sepSkip A).takeWhile isDigitC).dropWhile (fun c => c = '0')).length
      → vercompRun A B = 1)
    ∧ ((((sepSkip A).takeWhile isDigitC).dropWhile (fun c => c = '0')).length
        < (((sepSkip B).takeWhile isDigitC).dropWhile (fun c => c = '0')).length
      → vercompRun A B = -1)
    ∧ (∀ ca cb, (((sepSkip A).takeWhile isDigitC).dropWhile (fun c => c = '0')).length
          = (((sepSkip B).takeWhile isDigitC).dropWhile (fun c => c = '0')).length
      → firstDiff (((sepSkip A).takeWhile isDigitC).dropWhile (fun c => c = '0'))
          (((sepSkip B).takeWhile isDigitC).dropWhile (fun c => c = '0')) = some (ca, cb)
      → vercompRun A B = (ca.toNat : Int) - (cb.toNat : Int)) := by
  have h0 : ¬ (A = [] ∨ B = []) := by
    intro h
    rcases h with h | h
    exacts [hAne h, hBne h]
  have hc1 : ¬ (isDigitC (headCh (sepSkip B)) = false
      ∧ isDigitC (headCh (sepSkip A)) = true) := by simp [hdB]
  have hc2 : ¬ ((isDigitC (headCh (sepSkip A)) = true ∧ isAlphaC (headCh (sepSkip B)) = true)
      ∨ (isAlphaC (headCh (sepSkip A)) = true ∧ isDigitC (headCh (sepSkip B)) = true)) := by
    simp [digit_not_alpha hdA, digit_not_alpha hdB]
  have hc3 : ¬ isAlphaC (headCh (sepSkip A)) = true := by simp [digit_not_alpha hdA]
  refine ⟨fun hlt => ?_, fun hlt => ?_, fun ca cb hlen hfd => ?_⟩
  · simp only [vercompRun, vercompGo]
    rw [if_neg h0, if_neg hc1, if_neg hc2, if_neg hc3, if_pos hlt]
  · simp only [vercompRun, vercompGo]
    rw [if_neg h0, if_neg hc1, if_neg hc2, if_neg hc3, if_neg (by omega), if_pos hlt]
  · simp only [vercompRun, vercompGo]
    rw [if_neg h0, if_neg hc1, if_neg hc2, if_neg hc3, if_neg (by omega), if_neg (by omega)]
    simp only [hfd]

/-! ### Helper lemmas about the registry operations -/

theorem reg_entry_map_partial :
    ∀ (pre : List String) (st : RegState) (r : Nat) (p : String) (post : List String),
      (∀ q ∈ pre, ∀ f ∈ st.files, f.path ≠ q) →
      pre.Nodup →
      ((∃ f ∈ st.files, f.path = p) ∨ p ∈ pre) →
      reg_entry_map st r (pre ++ p :: post) =
        (⟨st.ports, st.files ++ pre.map (fun q => ⟨r, q⟩)⟩, pre.length,
         some RegError.alreadyOwned) := by
  intro pre
  induction pre with
  | nil =>
    intro st r p post hfresh hnd howned
    have hany : st.files.any (fun f => f.path = p) = true := by
      rcases howned with ⟨f, hf, he⟩ | h
      · exact List.any_eq_true.mpr ⟨f, hf, by simp [he]⟩
      · exact absurd h (List.not_mem_nil p)
    simp only [List.nil_append, reg_entry_map]
    rw [if_pos hany]
    simp
  | cons q pre' ih =>
    intro st r p post hfresh hnd howned
    have hnotin : q ∉ pre' := (List.nodup_cons.mp hnd).1
    have hq : ¬ st.files.any (fun f => f.path = q) = true := by
      simp only [List.any_eq_true, not_exists]
      intro f
      intro h
      rcases h with ⟨hf, he⟩
      exact absurd (of_decide_eq_true he) (hfresh q (by simp) f hf)
    simp only [List.cons_append, reg_entry_map]
    rw [if_neg hq]
    simp only [List.append_eq]
    rw [ih ⟨st.ports, st.files ++ [FileRow.mk r q]⟩ r p post ?_ ((List.nodup_cons.mp hnd).2) ?_]
    · simp [List.append_assoc]
    · intro q' hq' f hf
      rcases List.mem_append.mp hf with hf | hf
      · exact hfresh q' (List.mem_cons_of_mem _ hq') f hf
      · have : f = ⟨r, q⟩ := by simpa using hf
        subst this
        simp only [ne_eq]
        intro he
        exact hnotin (he ▸ hq')
    · rcases howned with ⟨f, hf, he⟩ | hp
      · exact Or.inl ⟨f, List.mem_append_left _ hf, he⟩
      · rcases List.mem_cons.mp hp with he | hp'
        · exact Or.inl ⟨⟨r, q⟩, List.mem_append_right _ (by simp), by simp [he]⟩
        · exact Or.inr hp'

theorem reg_entry_delete_files : ∀ (rs : List Nat) (st : RegState),
    (reg_entry_delete st rs).1.files = st.files := by
  intro rs
  induction rs with
  | nil => intro st; rfl
  | cons r rest ih =>
    intro st
    simp only [reg_entry_delete]
    by_cases h : st.ports.any (fun row => row.rowid = r) = true
    · rw [if_pos h]
      have hrec := ih ⟨st.ports.filter (fun row => ¬ row.rowid = r), st.files⟩
      rcases hd : reg_entry_delete ⟨st.ports.filter (fun row => ¬ row.rowid = r), st.files⟩ rest
        with ⟨st', n, e⟩
      rw [hd] at hrec
      simp only [hd]
      exact hrec
    · rw [if_neg h]

theorem reg_entry_delete_single {st : RegState} {r : Nat}
    (h : st.ports.any (fun row => row.rowid = r) = true) :
    reg_entry_delete st [r] =
      (⟨st.ports.filter (fun row => ¬ row.rowid = r), st.files⟩, 1, none) := by
  simp only [reg_entry_delete]
  rw [if_pos h]

theorem nameKeyConflict_variants {row : PortRow} {nm ep vs rv vr : String}
    (h : nameKeyConflict row nm ep vs rv vr = true) : row.variants = some vr := by
  cases h1 : row.name with
  | none => simp [nameKeyConflict, h1] at h
  | some n =>
  cases h2 : row.epoch with
  | none => simp [nameKeyConflict, h1, h2] at h
  | some e =>
  cases h3 : row.version with
  | none => simp [nameKeyConflict, h1, h2, h3] at h
  | some v =>
  cases h4 : row.revision with
  | none => simp [nameKeyConflict, h1, h2, h3, h4] at h
  | some rv0 =>
  cases h5 : row.variants with
  | none => simp [nameKeyConflict, h1, h2, h3, h4, h5] at h
  | some vr0 =>
    simp only [nameKeyConflict, h1, h2, h3, h4, h5, Bool.and_eq_true, decide_eq_true_eq] at h
    exact congrArg some h.2

theorem nameKeyConflict_of_eq {row : PortRow} {nm ep vs rv vr : String}
    (h1 : row.name = some nm) (h2 : row.epoch = some ep) (h3 : row.version = some vs)
    (h4 : row.revision = some rv) (h5 : row.variants = some vr) :
    nameKeyConflict row nm ep vs rv vr = true := by
  simp only [nameKeyConflict, h1, h2, h3, h4, h5]
  simp [verEqSql, rpm_vercomp_self]

theorem reg_entry_unmap_partial :
    ∀ (pre : List String) (st : RegState) (r : Nat) (p : String) (post : List String),
      (∀ q ∈ pre, FileRow.mk r q ∈ st.files) →
      pre.Nodup →
      (FileRow.mk r p ∉ st.files ∨ p ∈ pre) →
      reg_entry_unmap st r (pre ++ p :: post) =
        (⟨st.ports, st.files.filter (fun f => ¬ (f.port_id = r ∧ f.path ∈ pre))⟩,
         pre.length, some (RegError.notOwned p)) := by
  intro pre
  induction pre with
  | nil =>
    intro st r p post howned hnd hnot
    have hnp : FileRow.mk r p ∉ st.files := by
      rcases hnot with h | h
      · exact h
      · exact absurd h (List.not_mem_nil p)
    have hany : ¬ st.files.any (fun f => f.port_id = r ∧ f.path = p) = true := by
      intro h
      rcases List.any_eq_true.mp h with ⟨f, hf, hpred⟩
      have hp := of_decide_eq_true hpred
      obtain ⟨f1, f2⟩ := f
      simp only at hp
      obtain ⟨e1, e2⟩ := hp
      subst e1
      subst e2
      exact hnp hf
    simp only [List.nil_append, reg_entry_unmap]
    rw [if_neg hany]
    simp
  | cons q pre' ih =>
    intro st r p post howned hnd hnot
    have hnotin : q ∉ pre' := (List.nodup_cons.mp hnd).1
    have hmem : FileRow.mk r q ∈ st.files := howned q (by simp)
    have hany : st.files.any (fun f => f.port_id = r ∧ f.path = q) = true :=
      List.any_eq_true.mpr ⟨FileRow.mk r q, hmem, by simp⟩
    simp only [List.cons_append, reg_entry_unmap]
    rw [if_pos hany]
    simp only [List.append_eq]
    rw [ih ⟨st.ports, st.files.filter (fun f => ¬ (f.port_id = r ∧ f.path = q))⟩ r p post
        ?_ ((List.nodup_cons.mp hnd).2) ?_]
    · simp only [List.filter_filter]
      have hpt : ∀ f ∈ st.files,
          (decide ¬(f.port_id = r ∧ f.path ∈ pre') && decide ¬(f.port_id = r ∧ f.path = q))
          = decide ¬(f.port_id = r ∧ f.path ∈ q :: pre') := by
        intro f _
        rw [← Bool.decide_and, decide_eq_decide]
        simp only [List.mem_cons]
        tauto
      rw [List.filter_congr hpt]
      simp
    · intro q' hq'
      refine List.mem_filter.mpr ⟨howned q' (List.mem_cons_of_mem _ hq'), ?_⟩
      simp only [decide_eq_true_eq]
      intro hcontra
      exact hnotin (hcontra.2 ▸ hq')
    · rcases hnot with h | h
      · exact Or.inl (fun hm => h (List.mem_filter.mp hm).1)
      · rcases List.mem_cons.mp h with he | hp'
        · refine Or.inl (fun hm => ?_)
          have := of_decide_eq_true (List.mem_filter.mp hm).2
          exact this ⟨rfl, he⟩
        · exact Or.inr hp'

theorem reg_entry_search_nil (st : RegState) :
    reg_entry_search st [] = st.ports.map PortRow.rowid := by
  simp [reg_entry_search, rowMatches]

/-! ### Claim theorems -/

/-- C1: in the version comparator, when both current segments are numeric the
leading `'0'` characters are stripped before counting length; a longer
remaining (stripped) numeric segment makes that side greater regardless of
digit values; equal stripped lengths fall through to byte-wise comparison of
the trimmed digit runs, the first mismatching byte deciding; and concretely
`compare("7.1.000","7.1.002") = less` and `compare("1.2.3","1.2.10") = less`. -/
theorem C1_numeric_segment_rule :
    (∀ A B : List Char, A ≠ [] → B ≠ [] →
      isDigitC (headCh (sepSkip A)) = true → isDigitC (headCh (sepSkip B)) = true →
      ((((sepSkip B).takeWhile isDigitC).dropWhile (fun c => c = '0')).length
          < (((sepSkip A).takeWhile isDigitC).dropWhile (fun c => c = '0')).length
        → vercompRun A B = 1)
      ∧ ((((sepSkip A).takeWhile isDigitC).dropWhile (fun c => c = '0')).length
          < (((sepSkip B).takeWhile isDigitC).dropWhile (fun c => c = '0')).length
        → vercompRun A B = -1)
      ∧ (∀ ca cb, (((sepSkip A).takeWhile isDigitC).dropWhile (fun c => c = '0')).length
            = (((sepSkip B).takeWhile isDigitC).dropWhile (fun c => c = '0')).length
        → firstDiff (((sepSkip A).takeWhile isDigitC).dropWhile (fun c => c = '0'))
            (((sepSkip B).takeWhile isDigitC).dropWhile (fun c => c = '0')) = some (ca, cb)
        → vercompRun A B = (ca.toNat : Int) - (cb.toNat : Int)))
    ∧ vercomp "7.1.000" "7.1.002" = Ordering.lt
    ∧ vercomp "1.2.3" "1.2.10" = Ordering.lt :=
  ⟨fun A B hA hB hdA hdB => vercompRun_numeric_step A B hA hB hdA hdB, by decide, by decide⟩

/-- Witness for C1: the general numeric rule applied at "10" versus "2"
(stripped lengths 2 > 1, so the left side is greater). -/
theorem C1_numeric_segment_rule_witness :
    vercompRun "10".data "2".data = 1 ∧ vercomp "7.1.000" "7.1.002" = Ordering.lt :=
  ⟨(C1_numeric_segment_rule.1 "10".data "2".data (by decide) (by decide) (by decide)
      (by decide)).1 (by decide),
   C1_numeric_segment_rule.2.1⟩

/-- C2 counterexample: `rpm_vercomp` is not antisymmetric.  On `"-"` and `"0"`
the comparator answers equal in one direction but greater in the other: in
`compare("-","0")` the left side is exhausted by the separator skip while the
right side's digit run is all zeros, so both stripped counts are 0 and the
loop ends with both pointers at NUL (returns 0), whereas `compare("0","-")`
hits the digit-beats-non-digit rule and returns 1. -/
theorem C2_antisymmetry_counterexample :
    vercomp "-" "0" = Ordering.eq ∧ vercomp "0" "-" = Ordering.gt
    ∧ vercomp "0" "-" ≠ (vercomp "-" "0").swap := by
  decide

/-- C2 (amended): `compare(a,a) = equal` for every string; and antisymmetry
(`compare(b,a)` is the inverse of `compare(a,b)`) holds for all strings that
are empty or end in an alphanumeric character.  When a string ends in a run of
separator characters the comparator can be asymmetric, as `"-"` versus `"0"`
shows. -/
theorem C2_amended_antisymmetry :
    (∀ a : String, vercomp a a = Ordering.eq)
    ∧ (∀ a b : String, tailAlnum a.data = true → tailAlnum b.data = true →
        vercomp b a = (vercomp a b).swap) :=
  ⟨vercomp_refl, fun _ _ ha hb => vercomp_antisym ha hb⟩

/-- Witness for C2 (amended) at "1.2.3" / "1.2.10" and "7.1.000". -/
theorem C2_amended_antisymmetry_witness :
    vercomp "1.2.10" "1.2.3" = (vercomp "1.2.3" "1.2.10").swap
    ∧ vercomp "7.1.000" "7.1.000" = Ordering.eq :=
  ⟨C2_amended_antisymmetry.2 "1.2.3" "1.2.10" (by decide) (by decide),
   C2_amended_antisymmetry.1 "7.1.000"⟩

/-- C8: evaluation at the failing input.  When one alphabetic segment is a
proper prefix of the other (`"ab"` versus `"abc"`), the lexicographic scan
stops at the shorter segment's end without returning, both pointers are then
advanced past their whole segments (`ptrA = eptrA; ptrB = eptrB;`), and the
loop ends with both strings exhausted — the comparator answers equal, not
greater, contradicting the claim (and the code's own closing comment that
equality is only reached when "all alphanumeric characters were identical"). -/
theorem C8_alpha_prefix_eval :
    vercomp "ab" "abc" = Ordering.eq ∧ vercomp "1a" "1ab" = Ordering.eq := by
  decide

/-- C3 counterexample: `map` is not all-or-nothing.  Mapping
`["/usr/bin/a", "/usr/bin/b"]` to entry 1 while `"/usr/bin/b"` is already
owned by entry 2 inserts `"/usr/bin/a"`, then fails with the already-owned
error — and `"/usr/bin/a"` stays bound to entry 1, although it was part of the
failed batch.  Also the error carries no path. -/
theorem C3_map_counterexample :
    reg_entry_map ⟨[], [⟨2, "/usr/bin/b"⟩]⟩ 1 ["/usr/bin/a", "/usr/bin/b"] =
      (⟨[], [⟨2, "/usr/bin/b"⟩, ⟨1, "/usr/bin/a"⟩]⟩, 1, some RegError.alreadyOwned)
    ∧ FileRow.mk 1 "/usr/bin/a" ∈
        (reg_entry_map ⟨[], [⟨2, "/usr/bin/b"⟩]⟩ 1 ["/usr/bin/a", "/usr/bin/b"]).1.files := by
  decide

/-- C3 (amended): when a batch of paths passed to `map` contains a path that
is already owned (by any entry, or bound earlier in the same batch), the call
fails at the first such path with the already-owned error (which does not name
the path), the paths before it in the batch REMAIN bound to the entry, and the
offending path and the ones after it are not bound. -/
theorem C3_amended_map_first_failure :
    ∀ (st : RegState) (r : Nat) (pre : List String) (p : String) (post : List String),
      (∀ q ∈ pre, ∀ f ∈ st.files, f.path ≠ q) →
      pre.Nodup →
      ((∃ f ∈ st.files, f.path = p) ∨ p ∈ pre) →
      reg_entry_map st r (pre ++ p :: post) =
        (⟨st.ports, st.files ++ pre.map (fun q => ⟨r, q⟩)⟩, pre.length,
         some RegError.alreadyOwned) :=
  fun st r pre p post h1 h2 h3 => reg_entry_map_partial pre st r p post h1 h2 h3

/-- Witness for C3 (amended) at the counterexample scenario. -/
theorem C3_amended_map_first_failure_witness :
    reg_entry_map ⟨[], [⟨2, "/usr/bin/b"⟩]⟩ 1 (["/usr/bin/a"] ++ "/usr/bin/b" :: []) =
      (⟨[], [⟨2, "/usr/bin/b"⟩, ⟨1, "/usr/bin/a"⟩]⟩, 1, some RegError.alreadyOwned) := by
  have h := C3_amended_map_first_failure ⟨[], [⟨2, "/usr/bin/b"⟩]⟩ 1 ["/usr/bin/a"]
      "/usr/bin/b" [] (by decide) (by decide) (by decide)
  rw [h]
  decide

/-- C4 counterexample: deleting entry 1, which owns `/usr/bin/vim`, succeeds
(count 1, no error) and removes the ports row — but the FileOwnership row
`(1, "/usr/bin/vim")` is still present afterwards, pointing at the deleted
identity. -/
theorem C4_delete_counterexample :
    reg_entry_delete ⟨[demoRow], [⟨1, "/usr/bin/vim"⟩]⟩ [1] =
      (⟨[], [⟨1, "/usr/bin/vim"⟩]⟩, 1, none)
    ∧ FileRow.mk 1 "/usr/bin/vim" ∈
        (reg_entry_delete ⟨[demoRow], [⟨1, "/usr/bin/vim"⟩]⟩ [1]).1.files := by
  decide

/-- C4 (amended): `delete` removes only ports rows.  The files table is left
untouched by every delete call — FileOwnership rows whose `port_id` references
a deleted entry remain behind, dangling — and a successful single delete
removes exactly the rows with the given rowid from the ports table. -/
theorem C4_amended_delete_no_cascade :
    (∀ (st : RegState) (rs : List Nat), (reg_entry_delete st rs).1.files = st.files)
    ∧ (∀ (st : RegState) (r : Nat), st.ports.any (fun row => row.rowid = r) = true →
        reg_entry_delete st [r] =
          (⟨st.ports.filter (fun row => ¬ row.rowid = r), st.files⟩, 1, none)) :=
  ⟨fun st rs => reg_entry_delete_files rs st, fun _ _ h => reg_entry_delete_single h⟩

/-- Witness for C4 (amended) at the counterexample state. -/
theorem C4_amended_delete_no_cascade_witness :
    (reg_entry_delete ⟨[demoRow], [⟨1, "/usr/bin/vim"⟩]⟩ [1]).1.files = [⟨1, "/usr/bin/vim"⟩]
    ∧ reg_entry_delete ⟨[demoRow], [⟨1, "/usr/bin/vim"⟩]⟩ [1] =
        (⟨[], [⟨1, "/usr/bin/vim"⟩]⟩, 1, none) := by
  constructor
  · exact C4_amended_delete_no_cascade.1 ⟨[demoRow], [⟨1, "/usr/bin/vim"⟩]⟩ [1]
  · have h := C4_amended_delete_no_cascade.2 ⟨[demoRow], [⟨1, "/usr/bin/vim"⟩]⟩ 1 (by decide)
    rw [h]
    decide

/-- C5 counterexample: creating a second entry with the identical
(name, epoch, version, revision, variants) tuple fails and leaves the registry
unchanged, but the error is `RegError.sqliteError` — the generic
`registry::sqlite-error` storage error built by `reg_sqlite_error` — not a
distinct DuplicateError kind: `reg_entry_create` has no separate duplicate
error at all. -/
theorem C5_duplicate_error_counterexample :
    reg_entry_create ⟨[demoRow], []⟩ "vim" "7.1.000" "0" "multibyte +" "0" =
      (⟨[demoRow], []⟩, none, some RegError.sqliteError) := by
  decide

/-- C5 (amended): a create whose (name, epoch, version, revision, variants)
tuple matches an existing row fails with the GENERIC storage error
(`registry::sqlite-error`, not a distinct duplicate kind) and leaves the
registry unchanged; and a create against a registry in which no row carries
the requested variants string succeeds, appending the new row and returning a
handle bound to its fresh rowid — in particular a create differing from an
existing entry in the variants string alone succeeds. -/
theorem C5_amended_create :
    (∀ (st : RegState) (nm vs rv vr ep : String) (row : PortRow), row ∈ st.ports →
      row.name = some nm → row.epoch = some ep → row.version = some vs →
      row.revision = some rv → row.variants = some vr →
      reg_entry_create st nm vs rv vr ep = (st, none, some RegError.sqliteError))
    ∧ (∀ (st : RegState) (nm vs rv vr ep : String),
        (∀ row ∈ st.ports, row.variants ≠ some vr) →
        reg_entry_create st nm vs rv vr ep =
          (⟨st.ports ++ [{ rowid := freshRowid st, name := some nm, portfile := none,
                           url := none, location := none, epoch := some ep,
                           version := some vs, revision := some rv, variants := some vr,
                           state := none, date := none }], st.files⟩,
           some (freshRowid st), none)) := by
  constructor
  · intro st nm vs rv vr ep row hrow h1 h2 h3 h4 h5
    rw [reg_entry_create, if_pos (List.any_eq_true.mpr ⟨row, hrow,
        nameKeyConflict_of_eq h1 h2 h3 h4 h5⟩)]
  · intro st nm vs rv vr ep hvr
    have hno : ¬ st.ports.any (fun row => nameKeyConflict row nm ep vs rv vr) = true := by
      intro h
      rcases List.any_eq_true.mp h with ⟨row, hrow, hc⟩
      exact hvr row hrow (nameKeyConflict_variants hc)
    rw [reg_entry_create, if_neg hno]

/-- Witness for C5 (amended): the duplicate tuple fails generically; the same
tuple with a different variants string succeeds and lands in rowid 2. -/
theorem C5_amended_create_witness :
    reg_entry_create ⟨[demoRow], []⟩ "vim" "7.1.000" "0" "multibyte +" "0" =
      (⟨[demoRow], []⟩, none, some RegError.sqliteError)
    ∧ reg_entry_create ⟨[demoRow], []⟩ "vim" "7.1.000" "0" "" "0" =
      (⟨[demoRow, { rowid := 2, name := some "vim", portfile := none, url := none,
                    location := none, epoch := some "0", version := some "7.1.000",
                    revision := some "0", variants := some "", state := none,
                    date := none }], []⟩, some 2, none) := by
  constructor
  · exact C5_amended_create.1 ⟨[demoRow], []⟩ "vim" "7.1.000" "0" "multibyte +" "0" demoRow
      (by decide) rfl rfl rfl rfl rfl
  · have h := C5_amended_create.2 ⟨[demoRow], []⟩ "vim" "7.1.000" "0" "" "0" (by decide)
    rw [h]
    decide

/-- C6: evaluation of the key/value marshalling of `entry_search` at the
failing input — two predicates.  The loop `for (i=0; i<key_count; i+=2)` fills
only even-indexed slots of the `keys`/`vals` arrays: with the two predicates
`name=vim, state=active`, slot 0 receives `("name","vim")` but slot 1 is left
uninitialized (`none`) even though `key_count = 2` slots are handed to
`reg_entry_search`.  A single predicate is marshalled correctly. -/
theorem C6_search_marshal_eval :
    entry_search_marshal [("name", "vim"), ("state", "active")] =
      [some ("name", "vim"), none]
    ∧ entry_search_marshal [("name", "vim")] = [some ("name", "vim")]
    ∧ entry_search_marshal [] = [] := by
  decide

/-- C7: `unmap` of a batch in which `pre` are paths currently owned by the
entry and `p` is the first path it does not own (either never owned, owned by
another entry, or already removed earlier in this very batch): processing
stops at `p`, the call fails with the not-owned error naming `p`, the count of
removed paths is `pre.length`, the bindings of the paths in `pre` are gone
from the files table (no rollback), and nothing else changed. -/
theorem C7_unmap_first_failure :
    ∀ (st : RegState) (r : Nat) (pre : List String) (p : String) (post : List String),
      (∀ q ∈ pre, FileRow.mk r q ∈ st.files) →
      pre.Nodup →
      (FileRow.mk r p ∉ st.files ∨ p ∈ pre) →
      reg_entry_unmap st r (pre ++ p :: post) =
        (⟨st.ports, st.files.filter (fun f => ¬ (f.port_id = r ∧ f.path ∈ pre))⟩,
         pre.length, some (RegError.notOwned p))
      ∧ ∀ q ∈ pre,
          FileRow.mk r q ∉ (reg_entry_unmap st r (pre ++ p :: post)).1.files := by
  intro st r pre p post h1 h2 h3
  have heq := reg_entry_unmap_partial pre st r p post h1 h2 h3
  refine ⟨heq, fun q hq hmem => ?_⟩
  rw [heq] at hmem
  have hpred := of_decide_eq_true (List.mem_filter.mp hmem).2
  exact hpred ⟨rfl, hq⟩

/-- Witness for C7: `unmap(e, ["/usr/bin/x", "/not/mapped"])` where only the
first path is owned removes the first binding, then fails naming the second. -/
theorem C7_unmap_first_failure_witness :
    reg_entry_unmap ⟨[], [⟨1, "/usr/bin/x"⟩]⟩ 1 ["/usr/bin/x", "/not/mapped"] =
      (⟨[], []⟩, 1, some (RegError.notOwned "/not/mapped")) := by
  have h := (C7_unmap_first_failure ⟨[], [⟨1, "/usr/bin/x"⟩]⟩ 1 ["/usr/bin/x"] "/not/mapped"
      [] (by decide) (by decide) (by decide)).1
  simp only [List.cons_append, List.nil_append] at h
  rw [h]
  decide

/-- C9 counterexample: in a fresh session, `entry_create` exposes the new
entry as `registry::entry0` but records nothing in `entry_procs`; a later
search exposure of the same row identity therefore mints the distinct handle
`registry::entry1` instead of returning the recorded one. -/
theorem C9_handle_reuse_counterexample :
    (entry_create_session ⟨[], []⟩).2 = "registry::entry0"
    ∧ (entry_to_obj (entry_create_session ⟨[], []⟩).1 1).2 = "registry::entry1"
    ∧ (entry_to_obj (entry_create_session ⟨[], []⟩).1 1).2
        ≠ (entry_create_session ⟨[], []⟩).2 := by
  decide

/-- C9 (amended): the search-side exposure path (`entry_to_obj`) does reuse
handles — an identity with a recorded handle gets exactly that handle back and
the session is unchanged; an unrecorded identity gets a fresh handle that is
recorded, and exposing it again immediately returns that same handle — but
`entry_create` mints its handle WITHOUT recording it in the entry→handle
mapping, so one identity exposed first by create and later by search receives
two distinct handles. -/
theorem C9_amended_handle_reuse :
    (∀ (s : Session) (r : Nat) (pr : Nat × String),
      s.procs.find? (fun x => x.1 = r) = some pr → entry_to_obj s r = (s, pr.2))
    ∧ (∀ (s : Session) (r : Nat),
      s.procs.find? (fun x => x.1 = r) = none →
      (entry_to_obj s r).1.procs = s.procs ++ [(r, (entry_to_obj s r).2)]
      ∧ entry_to_obj (entry_to_obj s r).1 r = ((entry_to_obj s r).1, (entry_to_obj s r).2))
    ∧ (∀ s : Session, (entry_create_session s).1.procs = s.procs) := by
  refine ⟨?_, ?_, fun s => rfl⟩
  · intro s r pr h
    simp only [entry_to_obj, h]
  · intro s r h
    have h1 : entry_to_obj s r =
        (⟨s.procs ++ [(r, uniqueName s.cmds)], s.cmds ++ [uniqueName s.cmds]⟩,
         uniqueName s.cmds) := by
      simp only [entry_to_obj, h]
    constructor
    · rw [h1]
    · rw [h1]
      simp only [entry_to_obj, List.find?_append, h, Option.none_or]
      simp

/-- Witness for C9 (amended): a recorded identity returns its recorded handle;
an unrecorded identity's fresh handle is recorded in the mapping. -/
theorem C9_amended_handle_reuse_witness :
    entry_to_obj ⟨[(1, "registry::entry0")], ["registry::entry0"]⟩ 1 =
      (⟨[(1, "registry::entry0")], ["registry::entry0"]⟩, "registry::entry0")
    ∧ (entry_to_obj ⟨[], []⟩ 1).1.procs = [] ++ [(1, (entry_to_obj ⟨[], []⟩ 1).2)] := by
  constructor
  · exact C9_amended_handle_reuse.1 ⟨[(1, "registry::entry0")], ["registry::entry0"]⟩ 1
      (1, "registry::entry0") (by decide)
  · exact (C9_amended_handle_reuse.2.1 ⟨[], []⟩ 1 (by decide)).1

/-- C10: closing a valid entry handle removes only that handle's command from
the session (even the session's entry→handle row survives, and in particular
the persistent ports and files tables are untouched — the C function issues no
database statement at all), and any later search returns exactly what it
returned before the close, so the closed entry can be found again. -/
theorem C10_close_frame :
    ∀ (reg : RegState) (s : Session) (h : String) (preds : List (String × String)),
      h ∈ s.cmds →
      entry_close_full reg s [h] = (reg, ⟨s.procs, s.cmds.erase h⟩, none)
      ∧ reg_entry_search (entry_close_full reg s [h]).1 preds = reg_entry_search reg preds := by
  intro reg s h preds hmem
  refine ⟨?_, rfl⟩
  simp only [entry_close_full, entry_close]
  rw [if_pos hmem]

/-- Witness for C10: closing `registry::entry0` removes the command, keeps the
mapping row and the registry, and the row is still found by a later search. -/
theorem C10_close_frame_witness :
    entry_close_full ⟨[demoRow], []⟩ ⟨[(1, "registry::entry0")], ["registry::entry0"]⟩
        ["registry::entry0"] =
      (⟨[demoRow], []⟩, ⟨[(1, "registry::entry0")], []⟩, none)
    ∧ reg_entry_search
        (entry_close_full ⟨[demoRow], []⟩ ⟨[(1, "registry::entry0")], ["registry::entry0"]⟩
          ["registry::entry0"]).1 [("name", "vim")] = [1] := by
  have h := C10_close_frame ⟨[demoRow], []⟩ ⟨[(1, "registry::entry0")], ["registry::entry0"]⟩
      "registry::entry0" [("name", "vim")] (by decide)
  constructor
  · rw [h.1]
    decide
  · rw [h.2]
    decide
